import Mathlib

/-!
Shallow embedding of `src/mortgage_calculator.py`: the `MortgageCalculator`
class (monthly-payment computation, amortization-table generation, loan
summary, year-end balances) and the `MortgageComparison` class (loan list,
comparison table, combined amortization).  Python floats are modelled as
exact rationals, Python's fallible divisions (`ZeroDivisionError`) and
`pd.concat([])` (`ValueError`) are modelled with `Option`, and in-place
mutation of a loan's cached table is modelled by explicit state passing.
-/

namespace Mortgage

/-- Python's `round(x, 2)`: round a currency value to two decimal places. -/
def round2 (x : ℚ) : ℚ := (round (100 * x) : ℤ) / 100

/-- One row of the amortization table (one month), with the dictionary keys
`Month`, `Payment_Date`, `Payment`, `Principal`, `Interest`,
`Remaining_Balance`, `Total_Interest_Paid`, `Cumulative_Principal`.
Dates are modelled as integer day counts. -/
structure Row where
  month : ℕ
  payment_date : ℤ
  payment : ℚ
  principal : ℚ
  interest : ℚ
  remaining_balance : ℚ
  total_interest_paid : ℚ
  cumulative_principal : ℚ
deriving DecidableEq

/-- The `MortgageCalculator` object: the immutable constructor inputs plus
the mutable cached amortization table (`None` in Python becomes `none`).
The derived fields `monthly_rate`, `num_payments`, `monthly_payment` are
pure functions of the inputs and are defined below. -/
structure MortgageCalculator where
  principal : ℚ
  annual_rate : ℚ
  years : ℕ
  loan_name : String
  start_date : ℤ
  amortization_table : Option (List Row)
deriving DecidableEq

/-- `self.monthly_rate = annual_rate / 12`. -/
def monthly_rate (c : MortgageCalculator) : ℚ := c.annual_rate / 12

/-- `self.num_payments = years * 12`. -/
def num_payments (c : MortgageCalculator) : ℕ := c.years * 12

/-- `_calculate_monthly_payment`; `none` models Python's
`ZeroDivisionError` on a zero divisor. -/
def calculate_monthly_payment (c : MortgageCalculator) : Option ℚ :=
  if monthly_rate c = 0 then
    if (num_payments c : ℚ) = 0 then none
    else some (c.principal / (num_payments c : ℚ))
  else
    if (1 + monthly_rate c) ^ num_payments c - 1 = 0 then none
    else some (c.principal *
      (monthly_rate c * (1 + monthly_rate c) ^ num_payments c) /
      ((1 + monthly_rate c) ^ num_payments c - 1))

/-- `self.monthly_payment` as stored after a successful `__init__`
(with 0 as a junk value for objects `__init__` could never have produced). -/
def monthly_payment (c : MortgageCalculator) : ℚ :=
  (calculate_monthly_payment c).getD 0

/-- `MortgageCalculator.__init__`: `none` when computing the monthly payment
raises, so no object is ever handed to the caller in that case. -/
def MortgageCalculator_init (principal annual_rate : ℚ) (years : ℕ)
    (loan_name : String) (start_date : ℤ) : Option MortgageCalculator :=
  let c : MortgageCalculator :=
    ⟨principal, annual_rate, years, loan_name, start_date, none⟩
  match calculate_monthly_payment c with
  | none => none
  | some _ => some c

/-- Body of the `for month in range(1, num_payments + 1)` loop in
`generate_amortization_table`.  The state is
`(remaining_balance, total_interest_paid)`.  Note the source's clamp order:
the balance is zeroed first and only then added (now equal to zero) to the
principal payment. -/
def loop_body (c : MortgageCalculator) (state : ℚ × ℚ) (month : ℕ) :
    (ℚ × ℚ) × Row :=
  let remaining_balance := state.1
  let total_interest_paid := state.2
  let payment_date := c.start_date + 30 * (month : ℤ)
  let interest_payment := remaining_balance * monthly_rate c
  let principal_payment := monthly_payment c - interest_payment
  let remaining_balance := remaining_balance - principal_payment
  let total_interest_paid := total_interest_paid + interest_payment
  let remaining_balance' := if remaining_balance < 1 / 100 then 0 else remaining_balance
  let principal_payment :=
    if remaining_balance < 1 / 100 then principal_payment + remaining_balance'
    else principal_payment
  ((remaining_balance', total_interest_paid),
    { month := month
      payment_date := payment_date
      payment := round2 (monthly_payment c)
      principal := round2 principal_payment
      interest := round2 interest_payment
      remaining_balance := round2 remaining_balance'
      total_interest_paid := round2 total_interest_paid
      cumulative_principal := round2 (c.principal - remaining_balance') })

/-- Running the loop for the first `m` months, starting from
`remaining_balance = principal`, `total_interest_paid = 0`, and collecting
the emitted rows in order. -/
def run_months (c : MortgageCalculator) : ℕ → (ℚ × ℚ) × List Row
  | 0 => ((c.principal, 0), [])
  | m + 1 =>
    let prev := run_months c m
    let step := loop_body c prev.1 (m + 1)
    (step.1, prev.2 ++ [step.2])

/-- `generate_amortization_table` (the returned table; the cache update is
modelled by `generate_amortization_table_m`). -/
def generate_amortization_table (c : MortgageCalculator) : List Row :=
  (run_months c (num_payments c)).2

/-- The same method observed as a state change: the table is recomputed
unconditionally and `self.amortization_table` is replaced. -/
def generate_amortization_table_m (c : MortgageCalculator) :
    MortgageCalculator × List Row :=
  let t := generate_amortization_table c
  ({ c with amortization_table := some t }, t)

/-- The dictionary returned by `get_loan_summary`. -/
structure Summary where
  loan_name : String
  principal : ℚ
  annual_rate : ℚ
  monthly_rate : ℚ
  years : ℕ
  monthly_payment : ℚ
  total_payments : ℕ
  total_paid : ℚ
  total_interest : ℚ
  interest_percentage : ℚ
deriving DecidableEq

/-- The summary fields, all arithmetic on the constructor inputs.  The
`interest_percentage` division `(total_interest / total_paid) * 100` raises
`ZeroDivisionError` in Python when `total_paid` is 0 (reachable, e.g. for a
principal-0 loan); that error path is modelled as `none`. -/
def summary_of (c : MortgageCalculator) : Option Summary :=
  let total_paid := monthly_payment c * (num_payments c : ℚ)
  let total_interest := total_paid - c.principal
  if total_paid = 0 then none
  else some
    { loan_name := c.loan_name
      principal := c.principal
      annual_rate := c.annual_rate
      monthly_rate := monthly_rate c
      years := c.years
      monthly_payment := monthly_payment c
      total_payments := num_payments c
      total_paid := total_paid
      total_interest := total_interest
      interest_percentage := total_interest / total_paid * 100 }

/-- `get_loan_summary`: generates and caches the table when it is absent,
then returns the summary dictionary; the updated object is returned
explicitly since Python mutates `self`.  The cache is populated *before*
the summary arithmetic, so when the percentage division raises (`none`) the
mutation to the loan has already happened and persists. -/
def get_loan_summary (c : MortgageCalculator) :
    MortgageCalculator × Option Summary :=
  match c.amortization_table with
  | none =>
    let c1 := (generate_amortization_table_m c).1
    (c1, summary_of c1)
  | some _ => (c, summary_of c)

/-- One record of `get_year_end_balances`. -/
structure YearEnd where
  year : ℕ
  remaining_balance : ℚ
  total_interest_paid : ℚ
  cumulative_principal : ℚ
deriving DecidableEq

/-- The extraction loop of `get_year_end_balances` over a given table:
`for year in range(1, years + 1)`, keep the row at `year * 12 - 1` when that
index is in range, and skip the year otherwise. -/
def year_ends_from (t : List Row) (years : ℕ) : List YearEnd :=
  (List.range' 1 years).filterMap fun year =>
    match t.get? (year * 12 - 1) with
    | some row =>
      some { year := year,
             remaining_balance := row.remaining_balance,
             total_interest_paid := row.total_interest_paid,
             cumulative_principal := row.cumulative_principal }
    | none => none

/-- `get_year_end_balances`: generates and caches the table when it is
absent, then extracts the year-end records. -/
def get_year_end_balances (c : MortgageCalculator) :
    MortgageCalculator × List YearEnd :=
  match c.amortization_table with
  | none =>
    let c1 := (generate_amortization_table_m c).1
    (c1, year_ends_from (generate_amortization_table c) c.years)
  | some t => (c, year_ends_from t c.years)

/-- The `MortgageComparison` object: the ordered list of loans. -/
structure MortgageComparison where
  loans : List MortgageCalculator
deriving DecidableEq

/-- The loop inside `compare_loans`: each `get_loan_summary` call may
mutate its loan (populating the cache); the loans are updated in place, in
order.  When a summary raises (`none`), the exception aborts the loop: that
loan keeps the mutation its `get_loan_summary` already performed, the loans
after it are left untouched, and the error propagates. -/
def compare_loans_aux :
    List MortgageCalculator → List MortgageCalculator × Option (List Summary)
  | [] => ([], some [])
  | l :: ls =>
    match get_loan_summary l with
    | (l1, none) => (l1 :: ls, none)
    | (l1, some s) =>
      let rest := compare_loans_aux ls
      (l1 :: rest.1, rest.2.map fun ss => s :: ss)

/-- `compare_loans`: the summary of every loan, in insertion order (`none`
when one of the summaries raises), together with the (possibly mutated)
comparison object. -/
def compare_loans (mc : MortgageComparison) :
    MortgageComparison × Option (List Summary) :=
  let r := compare_loans_aux mc.loans
  (⟨r.1⟩, r.2)

/-- `if loan.amortization_table is None: loan.generate_amortization_table()`. -/
def ensure_table (l : MortgageCalculator) : MortgageCalculator :=
  match l.amortization_table with
  | none => (generate_amortization_table_m l).1
  | some _ => l

/-- The loop inside `get_combined_amortization`: one block of name-tagged
rows per loan, in insertion order, generating any missing table first. -/
def combined_aux :
    List MortgageCalculator → List MortgageCalculator × List (List (String × Row))
  | [] => ([], [])
  | l :: ls =>
    let l1 := ensure_table l
    let block := (l1.amortization_table.getD []).map fun row => (l1.loan_name, row)
    let rest := combined_aux ls
    (l1 :: rest.1, block :: rest.2)

/-- `get_combined_amortization`; `none` models the `ValueError` that
`pd.concat` raises on an empty list of frames. -/
def get_combined_amortization (mc : MortgageComparison) :
    Option (MortgageComparison × List (String × Row)) :=
  let r := combined_aux mc.loans
  match r.2 with
  | [] => none
  | _ => some (⟨r.1⟩, r.2.flatten)

/-! ### Analysis helpers: the running balance and accumulated interest -/

/-- The running `remaining_balance` after `m` loop iterations. -/
def bal (c : MortgageCalculator) (m : ℕ) : ℚ := (run_months c m).1.1

/-- The running `total_interest_paid` after `m` loop iterations. -/
def cumInt (c : MortgageCalculator) (m : ℕ) : ℚ := (run_months c m).1.2

/-- The balance after the month-`(m+1)` payment, before the clamp. -/
def preBal (c : MortgageCalculator) (m : ℕ) : ℚ :=
  bal c m - (monthly_payment c - bal c m * monthly_rate c)

/-- The clamp on the running balance. -/
def clamp01 (x : ℚ) : ℚ := if x < 1 / 100 then 0 else x

lemma bal_zero (c : MortgageCalculator) : bal c 0 = c.principal := rfl

lemma cumInt_zero (c : MortgageCalculator) : cumInt c 0 = 0 := rfl

lemma bal_succ (c : MortgageCalculator) (m : ℕ) :
    bal c (m + 1) = clamp01 (preBal c m) := rfl

lemma cumInt_succ (c : MortgageCalculator) (m : ℕ) :
    cumInt c (m + 1) = cumInt c m + bal c m * monthly_rate c := rfl

lemma run_months_length (c : MortgageCalculator) :
    ∀ m, ((run_months c m).2).length = m
  | 0 => rfl
  | m + 1 => by
    show (((run_months c m).2) ++ [_]).length = m + 1
    rw [List.length_append, run_months_length c m]
    rfl

lemma get?_concat_of_length {α : Type} (l : List α) (a : α) (i : ℕ)
    (h : l.length = i) : (l ++ [a]).get? i = some a := by
  subst h
  exact List.get?_concat_length l a

lemma run_months_get? (c : MortgageCalculator) :
    ∀ m i, i < m → ((run_months c m).2).get? i =
      some (loop_body c ((run_months c i).1) (i + 1)).2
  | 0, i, h => absurd h (Nat.not_lt_zero i)
  | m + 1, i, h => by
    show (((run_months c m).2) ++ [(loop_body c ((run_months c m).1) (m + 1)).2]).get? i = _
    rcases Nat.lt_or_ge i m with hi | hi
    · rw [List.get?_append (by rw [run_months_length]; exact hi)]
      exact run_months_get? c m i hi
    · have him : i = m := Nat.le_antisymm (Nat.lt_succ_iff.mp h) hi
      subst him
      exact get?_concat_of_length _ _ _ (run_months_length c i)

lemma loop_body_fst (c : MortgageCalculator) (s : ℚ × ℚ) (month : ℕ) :
    (loop_body c s month).1 =
      (clamp01 (s.1 - (monthly_payment c - s.1 * monthly_rate c)),
       s.2 + s.1 * monthly_rate c) := rfl

/-- The recorded principal portion: because the source zeroes the balance
before adding it back, the clamp never changes the recorded value. -/
lemma loop_body_row_principal (c : MortgageCalculator) (s : ℚ × ℚ) (month : ℕ) :
    ((loop_body c s month).2).principal =
      round2 (monthly_payment c - s.1 * monthly_rate c) := by
  show round2 (if s.1 - (monthly_payment c - s.1 * monthly_rate c) < 1 / 100 then
      monthly_payment c - s.1 * monthly_rate c +
        (if s.1 - (monthly_payment c - s.1 * monthly_rate c) < 1 / 100 then (0 : ℚ)
         else s.1 - (monthly_payment c - s.1 * monthly_rate c))
    else monthly_payment c - s.1 * monthly_rate c) =
    round2 (monthly_payment c - s.1 * monthly_rate c)
  by_cases h : s.1 - (monthly_payment c - s.1 * monthly_rate c) < 1 / 100
  · rw [if_pos h, if_pos h, add_zero]
  · rw [if_neg h]

lemma loop_body_row_balance (c : MortgageCalculator) (s : ℚ × ℚ) (month : ℕ) :
    ((loop_body c s month).2).remaining_balance =
      round2 (clamp01 (s.1 - (monthly_payment c - s.1 * monthly_rate c))) := rfl

lemma loop_body_row_interest (c : MortgageCalculator) (s : ℚ × ℚ) (month : ℕ) :
    ((loop_body c s month).2).interest = round2 (s.1 * monthly_rate c) := rfl

lemma loop_body_row_month (c : MortgageCalculator) (s : ℚ × ℚ) (month : ℕ) :
    ((loop_body c s month).2).month = month := rfl

lemma generate_length (c : MortgageCalculator) :
    (generate_amortization_table c).length = c.years * 12 :=
  run_months_length c (num_payments c)

lemma generate_get? (c : MortgageCalculator) (i : ℕ) (h : i < num_payments c) :
    (generate_amortization_table c).get? i =
      some (loop_body c (bal c i, cumInt c i) (i + 1)).2 := by
  have := run_months_get? c (num_payments c) i h
  simpa [generate_amortization_table, bal, cumInt] using this

lemma generate_get?_balance (c : MortgageCalculator) (i : ℕ) (h : i < num_payments c) :
    ((generate_amortization_table c).get? i).map Row.remaining_balance =
      some (round2 (bal c (i + 1))) := by
  rw [generate_get? c i h]
  show some (((loop_body c (bal c i, cumInt c i) (i + 1)).2).remaining_balance) = _
  rw [loop_body_row_balance, bal_succ]
  rfl

/-! ### Rounding facts -/

lemma round2_zero : round2 0 = 0 := by
  simp [round2]

lemma round2_mono {x y : ℚ} (h : x ≤ y) : round2 x ≤ round2 y := by
  unfold round2
  have h1 : round (100 * x) ≤ round (100 * y) := by
    rw [round_eq, round_eq]
    exact Int.floor_mono (by linarith)
  have h2 : ((round (100 * x) : ℤ) : ℚ) ≤ ((round (100 * y) : ℤ) : ℚ) := by
    exact_mod_cast h1
  linarith

lemma abs_round2_sub (x : ℚ) : |round2 x - x| ≤ 1 / 200 := by
  unfold round2
  have h := abs_sub_round (100 * x)
  rw [abs_le] at h ⊢
  obtain ⟨ha, hb⟩ := h
  constructor <;> linarith

/-! ### The monthly payment under the valid-loan hypotheses -/

lemma monthly_rate_nonneg (c : MortgageCalculator) (h : 0 ≤ c.annual_rate) :
    0 ≤ monthly_rate c := by
  unfold monthly_rate; positivity

lemma monthly_rate_lt (c : MortgageCalculator) (h : c.annual_rate < 1) :
    monthly_rate c < 1 / 12 := by
  unfold monthly_rate; linarith

lemma num_payments_ge (c : MortgageCalculator) (hy : 1 ≤ c.years) :
    12 ≤ num_payments c := by
  unfold num_payments; omega

lemma one_lt_pow_rate (c : MortgageCalculator) (h0 : 0 < c.annual_rate)
    (hy : 1 ≤ c.years) : 1 < (1 + monthly_rate c) ^ num_payments c := by
  have hr : 0 < monthly_rate c := by unfold monthly_rate; positivity
  have hn : (12 : ℚ) ≤ (num_payments c : ℚ) := by
    exact_mod_cast num_payments_ge c hy
  have hb := one_add_mul_le_pow (by linarith : (-2 : ℚ) ≤ monthly_rate c)
    (num_payments c)
  nlinarith

lemma monthly_payment_zero_rate (c : MortgageCalculator) (h0 : c.annual_rate = 0)
    (hy : 1 ≤ c.years) :
    monthly_payment c = c.principal / (num_payments c : ℚ) := by
  have hr : monthly_rate c = 0 := by unfold monthly_rate; rw [h0]; norm_num
  have hn : (num_payments c : ℚ) ≠ 0 := by
    have := num_payments_ge c hy
    exact_mod_cast by omega
  unfold monthly_payment calculate_monthly_payment
  rw [if_pos hr, if_neg hn]
  rfl

lemma monthly_payment_pos_rate (c : MortgageCalculator) (h0 : 0 < c.annual_rate)
    (hy : 1 ≤ c.years) :
    monthly_payment c = c.principal *
      (monthly_rate c * (1 + monthly_rate c) ^ num_payments c) /
      ((1 + monthly_rate c) ^ num_payments c - 1) := by
  have hr : monthly_rate c ≠ 0 := by
    unfold monthly_rate; positivity
  have hA : (1 + monthly_rate c) ^ num_payments c - 1 ≠ 0 := by
    have := one_lt_pow_rate c h0 hy
    intro hc; linarith [sub_eq_zero.mp hc]
  unfold monthly_payment calculate_monthly_payment
  rw [if_neg hr, if_neg hA]
  rfl

lemma monthly_payment_pos (c : MortgageCalculator) (hp : 0 < c.principal)
    (h0 : 0 ≤ c.annual_rate) (hy : 1 ≤ c.years) : 0 < monthly_payment c := by
  rcases eq_or_lt_of_le h0 with h | h
  · rw [monthly_payment_zero_rate c h.symm hy]
    have hn : (0 : ℚ) < (num_payments c : ℚ) := by
      have := num_payments_ge c hy
      exact_mod_cast by omega
    positivity
  · rw [monthly_payment_pos_rate c h hy]
    have hr : 0 < monthly_rate c := by unfold monthly_rate; positivity
    have hA := one_lt_pow_rate c h hy
    have hApos : 0 < (1 + monthly_rate c) ^ num_payments c := by positivity
    apply div_pos
    · positivity
    · linarith

lemma principal_rate_le_payment (c : MortgageCalculator) (hp : 0 < c.principal)
    (h0 : 0 ≤ c.annual_rate) (hy : 1 ≤ c.years) :
    c.principal * monthly_rate c ≤ monthly_payment c := by
  rcases eq_or_lt_of_le h0 with h | h
  · have hr : monthly_rate c = 0 := by unfold monthly_rate; rw [← h]; norm_num
    rw [hr, mul_zero]
    exact (monthly_payment_pos c hp h0 hy).le
  · rw [monthly_payment_pos_rate c h hy]
    have hr : 0 < monthly_rate c := by unfold monthly_rate; positivity
    have hA := one_lt_pow_rate c h hy
    rw [le_div_iff (by linarith)]
    have hkey : c.principal * monthly_rate c * 1 ≤
        c.principal * monthly_rate c * ((1 + monthly_rate c) ^ num_payments c) := by
      apply mul_le_mul_of_nonneg_left (by linarith) (by positivity)
    calc c.principal * monthly_rate c * ((1 + monthly_rate c) ^ num_payments c - 1)
        ≤ c.principal * monthly_rate c * ((1 + monthly_rate c) ^ num_payments c) := by
          apply mul_le_mul_of_nonneg_left (by linarith) (by positivity)
      _ = c.principal * (monthly_rate c * (1 + monthly_rate c) ^ num_payments c) := by ring

/-! ### The exact closed-form running balance -/

/-- The balance after `m` unclamped payments, in closed form. -/
def closedBal (c : MortgageCalculator) (m : ℕ) : ℚ :=
  c.principal * (1 + monthly_rate c) ^ m -
    monthly_payment c * ∑ i in Finset.range m, (1 + monthly_rate c) ^ i

lemma closedBal_zero (c : MortgageCalculator) : closedBal c 0 = c.principal := by
  simp [closedBal]

lemma closedBal_succ (c : MortgageCalculator) (m : ℕ) :
    closedBal c (m + 1) =
      closedBal c m * (1 + monthly_rate c) - monthly_payment c := by
  unfold closedBal
  rw [geom_sum_succ, pow_succ]
  ring

lemma closedBal_final (c : MortgageCalculator) (h0 : 0 ≤ c.annual_rate)
    (hy : 1 ≤ c.years) : closedBal c (num_payments c) = 0 := by
  rcases eq_or_lt_of_le h0 with h | h
  · have hr : monthly_rate c = 0 := by unfold monthly_rate; rw [← h]; norm_num
    have hn : (num_payments c : ℚ) ≠ 0 := by
      have := num_payments_ge c hy
      exact_mod_cast by omega
    rw [closedBal, monthly_payment_zero_rate c h.symm hy, hr]
    simp [div_mul_cancel₀ _ hn]
  · have hr : 0 < monthly_rate c := by unfold monthly_rate; positivity
    have hA := one_lt_pow_rate c h hy
    have hx1 : (1 + monthly_rate c) ≠ 1 := by intro hc; nlinarith [hr]
    rw [closedBal, monthly_payment_pos_rate c h hy, geom_sum_eq hx1]
    have hne : (1 + monthly_rate c) ^ num_payments c - 1 ≠ 0 := by
      intro hc; linarith [sub_eq_zero.mp hc]
    field_simp
    ring

lemma closedBal_shift (c : MortgageCalculator) :
    ∀ m a, closedBal c (a + m) =
      closedBal c a * (1 + monthly_rate c) ^ m -
        monthly_payment c * ∑ i in Finset.range m, (1 + monthly_rate c) ^ i
  | 0, a => by simp [closedBal]
  | m + 1, a => by
    have : a + (m + 1) = (a + m) + 1 := by omega
    rw [this, closedBal_succ, closedBal_shift c m a, geom_sum_succ, pow_succ]
    ring

lemma generate_length_num (c : MortgageCalculator) :
    (generate_amortization_table c).length = num_payments c :=
  run_months_length c (num_payments c)

/-- The running balance either follows the closed form exactly or has been
clamped to zero, and once zero it stays zero. -/
lemma bal_dichotomy (c : MortgageCalculator) (hP : 0 < monthly_payment c) :
    ∀ m, bal c m = closedBal c m ∨ bal c m = 0
  | 0 => Or.inl ((bal_zero c).trans (closedBal_zero c).symm)
  | m + 1 => by
    rcases bal_dichotomy c hP m with h | h
    · rw [bal_succ, preBal, h]
      unfold clamp01
      split
      · exact Or.inr rfl
      · refine Or.inl ?_
        rw [closedBal_succ]
        ring
    · rw [bal_succ, preBal, h]
      refine Or.inr ?_
      unfold clamp01
      have he : (0 : ℚ) - (monthly_payment c - 0 * monthly_rate c) =
          -monthly_payment c := by ring
      rw [if_pos (by rw [he]; linarith)]

lemma bal_final (c : MortgageCalculator) (hp : 0 < c.principal)
    (h0 : 0 ≤ c.annual_rate) (hy : 1 ≤ c.years) :
    bal c (num_payments c) = 0 := by
  have hP := monthly_payment_pos c hp h0 hy
  rcases bal_dichotomy c hP (num_payments c) with h | h
  · rw [h, closedBal_final c h0 hy]
  · exact h

lemma bal_invariant (c : MortgageCalculator) (hp : 0 < c.principal)
    (h0 : 0 ≤ c.annual_rate) (hy : 1 ≤ c.years) :
    ∀ m, 0 ≤ bal c m ∧ bal c m ≤ c.principal
  | 0 => ⟨hp.le, le_refl _⟩
  | m + 1 => by
    obtain ⟨hnn, hle⟩ := bal_invariant c hp h0 hy m
    have hr0 : 0 ≤ monthly_rate c := monthly_rate_nonneg c h0
    have hPr := principal_rate_le_payment c hp h0 hy
    rw [bal_succ]
    unfold clamp01
    by_cases hc : preBal c m < 1 / 100
    · rw [if_pos hc]
      exact ⟨le_refl 0, hp.le⟩
    · rw [if_neg hc]
      push_neg at hc
      have hmul : bal c m * monthly_rate c ≤ c.principal * monthly_rate c :=
        mul_le_mul_of_nonneg_right hle hr0
      unfold preBal at hc ⊢
      constructor <;> linarith

lemma bal_mono (c : MortgageCalculator) (hp : 0 < c.principal)
    (h0 : 0 ≤ c.annual_rate) (hy : 1 ≤ c.years) (m : ℕ) :
    bal c (m + 1) ≤ bal c m := by
  obtain ⟨hnn, hle⟩ := bal_invariant c hp h0 hy m
  have hr0 : 0 ≤ monthly_rate c := monthly_rate_nonneg c h0
  have hPr := principal_rate_le_payment c hp h0 hy
  rw [bal_succ]
  unfold clamp01
  by_cases hc : preBal c m < 1 / 100
  · rw [if_pos hc]
    exact hnn
  · rw [if_neg hc]
    have hmul : bal c m * monthly_rate c ≤ c.principal * monthly_rate c :=
      mul_le_mul_of_nonneg_right hle hr0
    unfold preBal
    linarith

/-- C1: for every loan with positive principal, annual rate in `[0, 1)` and
term of at least one year, `generate_amortization_table` produces exactly
`years * 12` rows, and the remaining balance recorded in the last row equals
0 to within one cent (in the exact-arithmetic model it is exactly 0). -/
theorem C1_schedule_length_and_final_balance (c : MortgageCalculator)
    (hp : 0 < c.principal) (h0 : 0 ≤ c.annual_rate) (h1 : c.annual_rate < 1)
    (hy : 1 ≤ c.years) :
    (generate_amortization_table c).length = c.years * 12 ∧
    ∃ row : Row, (generate_amortization_table c).getLast? = some row ∧
      |row.remaining_balance - 0| ≤ 1 / 100 := by
  have hn : 12 ≤ num_payments c := num_payments_ge c hy
  refine ⟨generate_length c, ?_⟩
  obtain ⟨m, hm⟩ : ∃ m, num_payments c = m + 1 := ⟨num_payments c - 1, by omega⟩
  refine ⟨(loop_body c ((run_months c m).1) (m + 1)).2, ?_, ?_⟩
  · show (run_months c (num_payments c)).2.getLast? = _
    rw [hm]
    show ((run_months c m).2 ++ [_]).getLast? = _
    exact List.getLast?_concat _
  · have hbal : bal c (num_payments c) = 0 := bal_final c hp h0 hy
    have hrow : ((loop_body c ((run_months c m).1) (m + 1)).2).remaining_balance =
        round2 (bal c (m + 1)) := by
      rw [loop_body_row_balance, bal_succ]
      rfl
    rw [hrow, ← hm, hbal, round2_zero]
    norm_num

/-- C5: with annual rate exactly 0 and a term of at least one year, the
computed monthly payment is exactly `principal / (years * 12)` and every
row of the generated schedule records an interest portion equal to 0. -/
theorem C5_zero_rate_payment_and_interest (c : MortgageCalculator)
    (h0 : c.annual_rate = 0) (hy : 1 ≤ c.years) :
    calculate_monthly_payment c = some (c.principal / ((c.years : ℚ) * 12)) ∧
    ∀ row ∈ generate_amortization_table c, row.interest = 0 := by
  have hr : monthly_rate c = 0 := by unfold monthly_rate; rw [h0]; norm_num
  have hn : (num_payments c : ℚ) ≠ 0 := by
    have := num_payments_ge c hy
    exact_mod_cast by omega
  constructor
  · unfold calculate_monthly_payment
    rw [if_pos hr, if_neg hn]
    have : ((num_payments c : ℕ) : ℚ) = (c.years : ℚ) * 12 := by
      unfold num_payments
      push_cast
      ring
    rw [this]
  · intro row hrow
    rw [List.mem_iff_get?] at hrow
    obtain ⟨i, hi⟩ := hrow
    have hilen : i < num_payments c := by
      have h := List.get?_eq_some.mp hi
      obtain ⟨hlt, -⟩ := h
      rwa [generate_length_num c] at hlt
    rw [generate_get? c i hilen] at hi
    have hrow_eq : row = (loop_body c (bal c i, cumInt c i) (i + 1)).2 :=
      (Option.some.inj hi).symm
    rw [hrow_eq, loop_body_row_interest]
    show round2 (bal c i * monthly_rate c) = 0
    rw [hr, mul_zero, round2_zero]

/-- C6: for every loan with positive principal, annual rate in `[0, 1)` and
term of at least one year, the remaining-balance column of the generated
schedule is non-increasing from each row to the next. -/
theorem C6_balance_nonincreasing (c : MortgageCalculator)
    (hp : 0 < c.principal) (h0 : 0 ≤ c.annual_rate) (h1 : c.annual_rate < 1)
    (hy : 1 ≤ c.years) :
    ∀ i ri rj, (generate_amortization_table c).get? i = some ri →
      (generate_amortization_table c).get? (i + 1) = some rj →
      rj.remaining_balance ≤ ri.remaining_balance := by
  intro i ri rj hri hrj
  have hi : i < num_payments c := by
    have h := List.get?_eq_some.mp hri
    obtain ⟨hlt, -⟩ := h
    rwa [generate_length_num c] at hlt
  have hj : i + 1 < num_payments c := by
    have h := List.get?_eq_some.mp hrj
    obtain ⟨hlt, -⟩ := h
    rwa [generate_length_num c] at hlt
  have e1 := generate_get?_balance c i hi
  have e2 := generate_get?_balance c (i + 1) hj
  rw [hri] at e1
  rw [hrj] at e2
  have e1' : ri.remaining_balance = round2 (bal c (i + 1)) :=
    Option.some.inj e1
  have e2' : rj.remaining_balance = round2 (bal c (i + 1 + 1)) :=
    Option.some.inj e2
  rw [e1', e2']
  exact round2_mono (bal_mono c hp h0 hy (i + 1))

/-! ### The recorded principal portions sum back to the principal (C4) -/

lemma principal_sum_eq (c : MortgageCalculator) :
    ∀ m, (((run_months c m).2).map Row.principal).sum =
      ∑ i in Finset.range m,
        round2 (monthly_payment c - bal c i * monthly_rate c)
  | 0 => by simp [run_months]
  | m + 1 => by
    have hr := loop_body_row_principal c ((run_months c m).1) (m + 1)
    show ((((run_months c m).2) ++
      [(loop_body c ((run_months c m).1) (m + 1)).2]).map Row.principal).sum = _
    rw [List.map_append, List.sum_append, principal_sum_eq c m,
      Finset.sum_range_succ]
    simp only [List.map_cons, List.map_nil, List.sum_cons, List.sum_nil,
      add_zero]
    rw [hr]
    rfl

lemma bal_zero_step (c : MortgageCalculator) (hP : 0 < monthly_payment c)
    (m : ℕ) (h : bal c m = 0) : bal c (m + 1) = 0 := by
  rw [bal_succ, preBal, h]
  unfold clamp01
  have he : (0 : ℚ) - (monthly_payment c - 0 * monthly_rate c) =
      -monthly_payment c := by ring
  rw [if_pos (by rw [he]; linarith)]

lemma bal_zero_after (c : MortgageCalculator) (hP : 0 < monthly_payment c)
    {a : ℕ} (ha : bal c a = 0) : ∀ m, a ≤ m → bal c m = 0 := by
  intro m
  induction m with
  | zero => intro h; exact (Nat.le_zero.mp h) ▸ ha
  | succ m ih =>
    intro h
    rcases Nat.lt_or_ge a (m + 1) with h2 | h2
    · exact bal_zero_step c hP m (ih (by omega))
    · have : a = m + 1 := by omega
      exact this ▸ ha

/-- If the trajectory reaches zero at step `k` with exact closed-form value
`closedBal c k`, then the whole clamped tail of payments is still small:
`(n - k) · payment < 0.01 · (1 + (n - k) · rate)`, via Bernoulli's
inequality on the geometric sum. -/
lemma payoff_tail_bound (c : MortgageCalculator) (hp : 0 < c.principal)
    (h0 : 0 ≤ c.annual_rate) (hy : 1 ≤ c.years) (k : ℕ)
    (hkn : k ≤ num_payments c) (hck_lt : closedBal c k < 1 / 100) :
    0 ≤ closedBal c k ∧
    ((num_payments c - k : ℕ) : ℚ) * monthly_payment c ≤
      1 / 100 * (1 + ((num_payments c - k : ℕ) : ℚ) * monthly_rate c) := by
  have hP := monthly_payment_pos c hp h0 hy
  have hr0 := monthly_rate_nonneg c h0
  set m := num_payments c - k with hm_def
  have hkm : k + m = num_payments c := by omega
  have hshift := closedBal_shift c m k
  rw [hkm, closedBal_final c h0 hy] at hshift
  set x := 1 + monthly_rate c with hx_def
  set S := ∑ i in Finset.range m, x ^ i with hS_def
  have hE : closedBal c k * x ^ m = monthly_payment c * S := by linarith
  have hxpos : 0 < x := by rw [hx_def]; linarith
  have hxm : 0 < x ^ m := pow_pos hxpos m
  have hSnn : 0 ≤ S := Finset.sum_nonneg fun i _ => (pow_pos hxpos i).le
  have hcknn : 0 ≤ closedBal c k := by nlinarith [mul_nonneg hP.le hSnn]
  refine ⟨hcknn, ?_⟩
  rcases Nat.eq_zero_or_pos m with hm0 | hmpos
  · rw [hm0]
    push_cast
    nlinarith
  rcases eq_or_lt_of_le hr0 with hrz | hrpos
  · have hx1 : x = 1 := by rw [hx_def, ← hrz]; ring
    have hSm : S = (m : ℚ) := by rw [hS_def, hx1]; simp
    have hck : closedBal c k = monthly_payment c * (m : ℚ) := by
      have := hE
      rw [hx1, one_pow, mul_one, hSm] at this
      linarith
    rw [← hrz]
    nlinarith
  · have hD : S * (x - 1) = x ^ m - 1 := geom_sum_mul x m
    have hx1 : x - 1 = monthly_rate c := by rw [hx_def]; ring
    have hSr : S * monthly_rate c = x ^ m - 1 := by rw [← hx1]; exact hD
    have hBern : 1 + (m : ℚ) * monthly_rate c ≤ x ^ m := by
      have hb := one_add_mul_le_pow
        (by linarith : (-2 : ℚ) ≤ monthly_rate c) m
      rw [hx_def]
      exact hb
    have hm1 : (1 : ℚ) ≤ (m : ℚ) := by exact_mod_cast hmpos
    have hDpos : 0 < x ^ m - 1 := by nlinarith
    have e1 : monthly_payment c * (m : ℚ) * (x ^ m - 1) =
        closedBal c k * x ^ m * (monthly_rate c * (m : ℚ)) := by
      rw [← hSr]
      nlinarith [hE]
    have h2 : 0 ≤ x ^ m - 1 - (m : ℚ) * monthly_rate c := by linarith
    have hkey : monthly_payment c * (m : ℚ) * (x ^ m - 1) ≤
        closedBal c k * (1 + (m : ℚ) * monthly_rate c) * (x ^ m - 1) := by
      rw [e1]
      nlinarith [mul_nonneg hcknn h2]
    have hPm : monthly_payment c * (m : ℚ) ≤
        closedBal c k * (1 + (m : ℚ) * monthly_rate c) :=
      le_of_mul_le_mul_right hkey hDpos
    have hone : (0 : ℚ) < 1 + (m : ℚ) * monthly_rate c := by
      have := mul_nonneg (Nat.cast_nonneg m : (0 : ℚ) ≤ (m : ℚ)) hr0
      linarith
    have hc2 : closedBal c k * (1 + (m : ℚ) * monthly_rate c) <
        1 / 100 * (1 + (m : ℚ) * monthly_rate c) :=
      mul_lt_mul_of_pos_right hck_lt hone
    calc (m : ℚ) * monthly_payment c
        = monthly_payment c * (m : ℚ) := mul_comm _ _
      _ ≤ closedBal c k * (1 + (m : ℚ) * monthly_rate c) := hPm
      _ ≤ 1 / 100 * (1 + (m : ℚ) * monthly_rate c) := hc2.le

/-- C4: for every loan with positive principal, annual rate in `[0, 1)` and
term of at least one year, the recorded (rounded) principal portions of the
schedule sum to the original principal to within one cent per row. -/
theorem C4_principal_sum (c : MortgageCalculator) (hp : 0 < c.principal)
    (h0 : 0 ≤ c.annual_rate) (h1 : c.annual_rate < 1) (hy : 1 ≤ c.years) :
    |(((generate_amortization_table c).map Row.principal).sum) - c.principal| ≤
      ((c.years * 12 : ℕ) : ℚ) * (1 / 100) := by
  have hP := monthly_payment_pos c hp h0 hy
  have hr0 := monthly_rate_nonneg c h0
  have hr12 := monthly_rate_lt c h1
  have hn12 : 12 ≤ num_payments c := num_payments_ge c hy
  have hn12q : (12 : ℚ) ≤ (num_payments c : ℚ) := by exact_mod_cast hn12
  have hsum : ((generate_amortization_table c).map Row.principal).sum =
      ∑ i in Finset.range (num_payments c),
        round2 (monthly_payment c - bal c i * monthly_rate c) :=
    principal_sum_eq c (num_payments c)
  -- the rounding error is at most 1/200 per row
  have hround : |∑ i in Finset.range (num_payments c),
        round2 (monthly_payment c - bal c i * monthly_rate c) -
      ∑ i in Finset.range (num_payments c),
        (monthly_payment c - bal c i * monthly_rate c)| ≤
      (num_payments c : ℚ) * (1 / 200) := by
    rw [← Finset.sum_sub_distrib]
    calc |∑ i in Finset.range (num_payments c),
          (round2 (monthly_payment c - bal c i * monthly_rate c) -
            (monthly_payment c - bal c i * monthly_rate c))|
        ≤ ∑ i in Finset.range (num_payments c),
          |round2 (monthly_payment c - bal c i * monthly_rate c) -
            (monthly_payment c - bal c i * monthly_rate c)| :=
          Finset.abs_sum_le_sum_abs _ _
      _ ≤ ∑ _i in Finset.range (num_payments c), (1 / 200 : ℚ) :=
          Finset.sum_le_sum fun i _ => abs_round2_sub _
      _ = (num_payments c : ℚ) * (1 / 200) := by
          rw [Finset.sum_const, Finset.card_range]
          simp [nsmul_eq_mul]
  -- the first month at which the running balance is zero
  have hex : ∃ m, bal c m = 0 := ⟨num_payments c, bal_final c hp h0 hy⟩
  have hkspec : bal c (Nat.find hex) = 0 := Nat.find_spec hex
  have hkmin : ∀ m, m < Nat.find hex → bal c m ≠ 0 :=
    fun m hm => Nat.find_min hex hm
  have hkn : Nat.find hex ≤ num_payments c :=
    Nat.find_min' hex (bal_final c hp h0 hy)
  have hk1 : 1 ≤ Nat.find hex := by
    rcases Nat.eq_zero_or_pos (Nat.find hex) with hz | hpos
    · exfalso
      have := hkspec
      rw [hz, bal_zero] at this
      linarith
    · exact hpos
  set k := Nat.find hex with hk_def
  have hbc : ∀ m, m < k → bal c m = closedBal c m := fun m hm =>
    (bal_dichotomy c hP m).resolve_right (hkmin m hm)
  -- the clamp fired at month k, so the exact balance there was < 0.01
  have hck_lt : closedBal c k < 1 / 100 := by
    obtain ⟨j, hj⟩ : ∃ j, k = j + 1 := ⟨k - 1, by omega⟩
    have hbj : bal c j = closedBal c j := hbc j (by omega)
    have hstep : bal c (j + 1) = clamp01 (preBal c j) := bal_succ c j
    rw [← hj, hkspec] at hstep
    have hpre : preBal c j = closedBal c k := by
      rw [preBal, hbj, hj, closedBal_succ]
      ring
    unfold clamp01 at hstep
    by_cases hcc : preBal c j < 1 / 100
    · rw [← hpre]; exact hcc
    · rw [if_neg hcc] at hstep
      rw [← hpre, ← hstep]
      norm_num
  -- exact (unrounded) sum of the principal portions
  have htel : ∑ i in Finset.range k,
      (monthly_payment c - bal c i * monthly_rate c) =
      c.principal - closedBal c k := by
    have hcongr : ∀ i ∈ Finset.range k,
        monthly_payment c - bal c i * monthly_rate c =
          closedBal c i - closedBal c (i + 1) := by
      intro i hi
      rw [Finset.mem_range] at hi
      rw [hbc i hi, closedBal_succ]
      ring
    rw [Finset.sum_congr rfl hcongr, Finset.sum_range_sub', closedBal_zero]
  have htail : ∑ i in Finset.Ico k (num_payments c),
      (monthly_payment c - bal c i * monthly_rate c) =
      ((num_payments c - k : ℕ) : ℚ) * monthly_payment c := by
    have hz : ∀ i ∈ Finset.Ico k (num_payments c),
        monthly_payment c - bal c i * monthly_rate c = monthly_payment c := by
      intro i hi
      rw [Finset.mem_Ico] at hi
      rw [bal_zero_after c hP hkspec i hi.1]
      ring
    rw [Finset.sum_congr rfl hz, Finset.sum_const, Nat.card_Ico]
    simp [nsmul_eq_mul]
  have hsplit : ∑ i in Finset.range (num_payments c),
      (monthly_payment c - bal c i * monthly_rate c) =
      (c.principal - closedBal c k) +
        ((num_payments c - k : ℕ) : ℚ) * monthly_payment c := by
    have hIco := Finset.sum_Ico_consecutive
      (fun i => monthly_payment c - bal c i * monthly_rate c)
      (Nat.zero_le k) hkn
    rw [Finset.range_eq_Ico, ← hIco, ← Finset.range_eq_Ico, htel, htail]
  obtain ⟨hcknn, hdrift⟩ := payoff_tail_bound c hp h0 hy k hkn hck_lt
  -- |unrounded sum − principal| ≤ n/200
  have hmk : ((num_payments c - k : ℕ) : ℚ) ≤ (num_payments c : ℚ) := by
    exact_mod_cast Nat.sub_le _ _
  have hmknn : (0 : ℚ) ≤ ((num_payments c - k : ℕ) : ℚ) := Nat.cast_nonneg _
  have hunrounded : |∑ i in Finset.range (num_payments c),
      (monthly_payment c - bal c i * monthly_rate c) - c.principal| ≤
      (num_payments c : ℚ) * (1 / 200) := by
    rw [hsplit, abs_le]
    constructor
    · nlinarith [mul_nonneg hmknn hP.le]
    · have htr : ((num_payments c - k : ℕ) : ℚ) * monthly_rate c ≤
          (num_payments c : ℚ) * (1 / 12) :=
        mul_le_mul hmk hr12.le hr0 (by linarith)
      nlinarith
  -- assemble
  have hfinal : |((generate_amortization_table c).map Row.principal).sum -
      c.principal| ≤ (num_payments c : ℚ) * (1 / 100) := by
    rw [hsum]
    calc |∑ i in Finset.range (num_payments c),
          round2 (monthly_payment c - bal c i * monthly_rate c) - c.principal|
        ≤ |∑ i in Finset.range (num_payments c),
            round2 (monthly_payment c - bal c i * monthly_rate c) -
          ∑ i in Finset.range (num_payments c),
            (monthly_payment c - bal c i * monthly_rate c)| +
          |∑ i in Finset.range (num_payments c),
            (monthly_payment c - bal c i * monthly_rate c) - c.principal| :=
          abs_sub_le _ _ _
      _ ≤ (num_payments c : ℚ) * (1 / 200) + (num_payments c : ℚ) * (1 / 200) :=
          add_le_add hround hunrounded
      _ = (num_payments c : ℚ) * (1 / 100) := by ring
  have hcast : ((c.years * 12 : ℕ) : ℚ) = (num_payments c : ℚ) := by
    unfold num_payments
    norm_num
  rw [hcast]
  exact hfinal

/-! ### Exact evaluation of `round2` at concrete points -/

lemma round2_eq_of_bounds (x : ℚ) (z : ℤ) (h1 : (z : ℚ) - 1 / 2 ≤ 100 * x)
    (h2 : 100 * x < (z : ℚ) + 1 / 2) : round2 x = (z : ℚ) / 100 := by
  unfold round2
  have hz : round (100 * x) = z := by
    rw [round_eq, Int.floor_eq_iff]
    constructor <;> linarith
  rw [hz]

/-! ### The spec's corrected clamp (sweep, then zero) for comparison (C2) -/

/-- Modelled from the spec: the corrected clamp that sweeps the non-zero
drift into the month's principal portion *before* zeroing the balance
(`principalPortion += drift; remainingBalance = 0`).  This is the behaviour
the claim attributes to the loop body; everything else matches `loop_body`. -/
def loop_body_swept (c : MortgageCalculator) (state : ℚ × ℚ) (month : ℕ) :
    (ℚ × ℚ) × Row :=
  let remaining_balance := state.1
  let total_interest_paid := state.2
  let payment_date := c.start_date + 30 * (month : ℤ)
  let interest_payment := remaining_balance * monthly_rate c
  let principal_payment := monthly_payment c - interest_payment
  let remaining_balance := remaining_balance - principal_payment
  let total_interest_paid := total_interest_paid + interest_payment
  let principal_payment :=
    if remaining_balance < 1 / 100 then principal_payment + remaining_balance
    else principal_payment
  let remaining_balance' := if remaining_balance < 1 / 100 then 0 else remaining_balance
  ((remaining_balance', total_interest_paid),
    { month := month
      payment_date := payment_date
      payment := round2 (monthly_payment c)
      principal := round2 principal_payment
      interest := round2 interest_payment
      remaining_balance := round2 remaining_balance'
      total_interest_paid := round2 total_interest_paid
      cumulative_principal := round2 (c.principal - remaining_balance') })

/-- The generation loop with the swept clamp, as the spec words it. -/
def run_months_swept (c : MortgageCalculator) : ℕ → (ℚ × ℚ) × List Row
  | 0 => ((c.principal, 0), [])
  | m + 1 =>
    let prev := run_months_swept c m
    let step := loop_body_swept c prev.1 (m + 1)
    (step.1, prev.2 ++ [step.2])

/-- Schedule generation under the spec's swept clamp. -/
def generate_amortization_table_swept (c : MortgageCalculator) : List Row :=
  (run_months_swept c (num_payments c)).2

/-- In a clamped month the swept clamp records the whole opening balance as
the principal portion (payment minus interest plus the residual). -/
lemma loop_body_swept_row_principal (c : MortgageCalculator) (s : ℚ × ℚ)
    (month : ℕ) :
    ((loop_body_swept c s month).2).principal =
      round2 (if s.1 - (monthly_payment c - s.1 * monthly_rate c) < 1 / 100
        then s.1 else monthly_payment c - s.1 * monthly_rate c) := by
  show round2 (if s.1 - (monthly_payment c - s.1 * monthly_rate c) < 1 / 100
      then (monthly_payment c - s.1 * monthly_rate c) +
        (s.1 - (monthly_payment c - s.1 * monthly_rate c))
      else monthly_payment c - s.1 * monthly_rate c) = _
  by_cases h : s.1 - (monthly_payment c - s.1 * monthly_rate c) < 1 / 100
  · rw [if_pos h, if_pos h]
    congr 1
    ring
  · rw [if_neg h, if_neg h]

lemma run_months_swept_length (c : MortgageCalculator) :
    ∀ m, ((run_months_swept c m).2).length = m
  | 0 => rfl
  | m + 1 => by
    show (((run_months_swept c m).2) ++ [_]).length = m + 1
    rw [List.length_append, run_months_swept_length c m]
    rfl

lemma run_months_swept_get?_zero (c : MortgageCalculator) :
    ∀ m, 1 ≤ m → ((run_months_swept c m).2).get? 0 =
      some ((loop_body_swept c (c.principal, 0) 1).2)
  | 0, h => absurd h (by omega)
  | m + 1, h => by
    show (((run_months_swept c m).2) ++ [_]).get? 0 = _
    rcases Nat.eq_zero_or_pos m with hm | hm
    · subst hm
      rfl
    · rw [List.get?_append (by rw [run_months_swept_length c m]; omega)]
      exact run_months_swept_get?_zero c m hm

/-- A loan of 0.006 currency units at rate 0 over 1 year: its first payment
drives the balance to 0.0055, below the clamp epsilon, leaving a non-zero
residual for the clamp to handle. -/
def tiny_loan : MortgageCalculator := ⟨3 / 500, 0, 1, "Tiny", 0, none⟩

lemma tiny_loan_payment : monthly_payment tiny_loan = 1 / 2000 := by
  rw [monthly_payment_zero_rate tiny_loan rfl (by norm_num [tiny_loan])]
  show (3 / 500 : ℚ) / ((num_payments tiny_loan : ℕ) : ℚ) = 1 / 2000
  norm_num [num_payments, tiny_loan]

lemma tiny_loan_rate : monthly_rate tiny_loan = 0 := by
  norm_num [monthly_rate, tiny_loan]

lemma tiny_loan_preBal : preBal tiny_loan 0 = 11 / 2000 := by
  rw [preBal, bal_zero, tiny_loan_payment, tiny_loan_rate]
  norm_num [tiny_loan]

/-- C2: the claim says that whenever the balance falls below the 0.01
epsilon, the non-zero drift is swept into the recorded principal portion
before the balance is zeroed.  The source zeroes the balance first and then
adds the already-zeroed balance, so the residual is discarded: at
`tiny_loan`, month 1, the pre-clamp residual is 11/2000 ≠ 0, the code
records a principal portion of 0, while the spec's sweep-then-zero clamp
would record 1/100. -/
theorem C2_clamp_discards_residual :
    preBal tiny_loan 0 = 11 / 2000 ∧
    (0 : ℚ) < preBal tiny_loan 0 ∧ preBal tiny_loan 0 < 1 / 100 ∧
    ((generate_amortization_table tiny_loan).get? 0).map Row.principal =
      some 0 ∧
    ((generate_amortization_table_swept tiny_loan).get? 0).map Row.principal =
      some (1 / 100) := by
  have hpp : monthly_payment tiny_loan - bal tiny_loan 0 * monthly_rate tiny_loan
      = 1 / 2000 := by
    rw [bal_zero, tiny_loan_payment, tiny_loan_rate]
    norm_num [tiny_loan]
  refine ⟨tiny_loan_preBal, by rw [tiny_loan_preBal]; norm_num,
    by rw [tiny_loan_preBal]; norm_num, ?_, ?_⟩
  · rw [generate_get? tiny_loan 0 (by norm_num [num_payments, tiny_loan])]
    show some (((loop_body tiny_loan (bal tiny_loan 0, cumInt tiny_loan 0) 1).2).principal) = some 0
    rw [loop_body_row_principal]
    show some (round2 (monthly_payment tiny_loan - bal tiny_loan 0 * monthly_rate tiny_loan)) = some 0
    rw [hpp, round2_eq_of_bounds (1 / 2000) 0 (by norm_num) (by norm_num)]
    norm_num
  · show ((run_months_swept tiny_loan (num_payments tiny_loan)).2.get? 0).map Row.principal = some (1 / 100)
    rw [run_months_swept_get?_zero tiny_loan (num_payments tiny_loan)
      (by norm_num [num_payments, tiny_loan])]
    show some (((loop_body_swept tiny_loan (tiny_loan.principal, 0) 1).2).principal) = some (1 / 100)
    rw [loop_body_swept_row_principal]
    have hs1 : ((tiny_loan.principal, (0 : ℚ)) : ℚ × ℚ).1 = bal tiny_loan 0 := rfl
    rw [hs1, hpp]
    have hcond : bal tiny_loan 0 - 1 / 2000 < 1 / 100 := by
      rw [bal_zero]
      norm_num [tiny_loan]
    rw [if_pos hcond, bal_zero]
    show some (round2 ((3 : ℚ) / 500)) = some (1 / 100)
    rw [round2_eq_of_bounds (3 / 500) 1 (by norm_num) (by norm_num)]
    norm_num

/-! ### compare_loans and the cache (C3) -/

/-- A loan after its absent schedule cache has been populated (and with an
already-present cache left as it is). -/
def cache_filled (l : MortgageCalculator) : MortgageCalculator :=
  { l with amortization_table := some (l.amortization_table.getD (generate_amortization_table l)) }

lemma with_cache_self (l : MortgageCalculator) {t : List Row}
    (hl : l.amortization_table = some t) :
    ({ l with amortization_table := some t } : MortgageCalculator) = l := by
  obtain ⟨p, r, y, nm, sd, a⟩ := l
  have ha : a = some t := hl
  rw [ha]

lemma get_loan_summary_state (l : MortgageCalculator) :
    (get_loan_summary l).1 = cache_filled l := by
  unfold get_loan_summary cache_filled
  split
  next hl =>
    rw [hl]
    rfl
  next t hl =>
    rw [hl]
    exact (with_cache_self l hl).symm

/-- The summary value does not depend on the cache, so `get_loan_summary`
returns `summary_of` of the loan itself on both paths. -/
lemma get_loan_summary_snd (l : MortgageCalculator) :
    (get_loan_summary l).2 = summary_of l := by
  unfold get_loan_summary
  split <;> rfl

lemma get_loan_summary_eq (l : MortgageCalculator) :
    get_loan_summary l = (cache_filled l, summary_of l) := by
  have hp : get_loan_summary l =
      ((get_loan_summary l).1, (get_loan_summary l).2) := rfl
  rw [hp, get_loan_summary_state, get_loan_summary_snd]

/-- The summary raises exactly when the total paid is zero. -/
lemma summary_of_eq_none_iff (c : MortgageCalculator) :
    summary_of c = none ↔ monthly_payment c * (num_payments c : ℚ) = 0 := by
  unfold summary_of
  by_cases h : monthly_payment c * (num_payments c : ℚ) = 0
  · simp [h]
  · simp [h]

/-- How many loans the `compare_loans` loop visits before returning or
raising: every loan up to and including the first one whose summary
raises (all of them when none raises). -/
def visited : List MortgageCalculator → ℕ
  | [] => 0
  | l :: ls =>
    match summary_of l with
    | none => 1
    | some _ => visited ls + 1

/-- The loans after `compare_loans`: the visited prefix has its absent
caches populated, the rest is untouched. -/
lemma compare_loans_aux_fst :
    ∀ ls : List MortgageCalculator,
      (compare_loans_aux ls).1 =
        (ls.take (visited ls)).map cache_filled ++ ls.drop (visited ls)
  | [] => rfl
  | l :: ls => by
    unfold compare_loans_aux visited
    rw [get_loan_summary_eq l]
    cases hs : summary_of l with
    | none => rfl
    | some s =>
      show cache_filled l :: (compare_loans_aux ls).1 = _
      rw [compare_loans_aux_fst ls]
      rfl

lemma visited_eq_length :
    ∀ ls : List MortgageCalculator,
      (∀ l ∈ ls, summary_of l ≠ none) → visited ls = ls.length
  | [], _ => rfl
  | l :: ls, h => by
    unfold visited
    cases hs : summary_of l with
    | none => exact absurd hs (h l (List.mem_cons_self l ls))
    | some s =>
      show visited ls + 1 = ls.length + 1
      rw [visited_eq_length ls fun x hx => h x (List.mem_cons_of_mem l hx)]

/-- `compare_loans` succeeds exactly when no loan's summary raises. -/
lemma compare_loans_aux_snd_ne_none :
    ∀ ls : List MortgageCalculator,
      (compare_loans_aux ls).2 ≠ none ↔ ∀ l ∈ ls, summary_of l ≠ none
  | [] => by
    constructor
    · intro _ l hl
      exact absurd hl (List.not_mem_nil l)
    · intro _ h
      exact Option.noConfusion h
  | l :: ls => by
    unfold compare_loans_aux
    rw [get_loan_summary_eq l]
    cases hs : summary_of l with
    | none =>
      show (none : Option (List Summary)) ≠ none ↔ _
      constructor
      · intro h
        exact absurd rfl h
      · intro h
        exact absurd hs (h l (List.mem_cons_self l ls))
    | some s =>
      show (compare_loans_aux ls).2.map (fun ss => s :: ss) ≠ none ↔ _
      rw [Ne, Option.map_eq_none']
      constructor
      · intro h x hx
        rcases List.mem_cons.mp hx with hx | hx
        · rw [hx, hs]
          exact fun hc => Option.noConfusion hc
        · exact ((compare_loans_aux_snd_ne_none ls).mp h) x hx
      · intro h
        exact (compare_loans_aux_snd_ne_none ls).mpr
          fun x hx => h x (List.mem_cons_of_mem l hx)

/-- A loan whose schedule cache has not been populated yet. -/
def fresh_loan : MortgageCalculator := ⟨1200, 0, 1, "Fresh", 0, none⟩

lemma fresh_loan_payment : monthly_payment fresh_loan = 100 := by
  rw [monthly_payment_zero_rate fresh_loan rfl (by norm_num [fresh_loan])]
  show (1200 : ℚ) / ((num_payments fresh_loan : ℕ) : ℚ) = 100
  norm_num [num_payments, fresh_loan]

lemma fresh_loan_summary_some : summary_of fresh_loan ≠ none := by
  rw [Ne, summary_of_eq_none_iff, fresh_loan_payment]
  norm_num [num_payments, fresh_loan]

/-- C3 counterexample: `compare_loans` is not a pure read.  On a LoanSet
holding one loan with no cached schedule (and a well-formed total payment),
the call changes the loan's observable state: `get_loan_summary` populates
the cached amortization table, so the resulting LoanSet differs from the
original. -/
theorem C3_compare_loans_mutates :
    (compare_loans ⟨[fresh_loan]⟩).1 ≠ (⟨[fresh_loan]⟩ : MortgageComparison) := by
  intro h
  have h1 : (compare_loans ⟨[fresh_loan]⟩).1.loans = [fresh_loan] := by rw [h]
  have h3 : (compare_loans ⟨[fresh_loan]⟩).1.loans =
      (compare_loans_aux [fresh_loan]).1 := rfl
  obtain ⟨s, hs⟩ : ∃ s, summary_of fresh_loan = some s := by
    cases hh : summary_of fresh_loan with
    | none => exact absurd hh fresh_loan_summary_some
    | some s => exact ⟨s, rfl⟩
  have h4 : (compare_loans_aux [fresh_loan]).1 = [cache_filled fresh_loan] := by
    unfold compare_loans_aux
    rw [get_loan_summary_eq fresh_loan, hs]
    rfl
  rw [h3, h4] at h1
  have h5 : cache_filled fresh_loan = fresh_loan := by
    have := List.cons.injEq (cache_filled fresh_loan) [] fresh_loan []
    simpa using h1
  have h6 := congrArg MortgageCalculator.amortization_table h5
  have h7 : (cache_filled fresh_loan).amortization_table =
      some (generate_amortization_table fresh_loan) := rfl
  rw [h7] at h6
  have h8 : fresh_loan.amortization_table = none := rfl
  rw [h8] at h6
  exact Option.noConfusion h6

/-- C3 amended: `compare_loans` preserves the number and the order of the
loans and every loan's constructor fields, and its only state change is
populating absent schedule caches — but it is neither a pure read nor
total: it visits loans in order up to and including the first one whose
summary division by a zero total payment raises (all of them when none
raises, which is exactly when the call returns a value), fills each visited
loan's absent cache with that loan's generated table, leaves already-present
caches and all unvisited loans unchanged, and propagates the error. -/
theorem C3_compare_loans_cache_only (mc : MortgageComparison) :
    ((compare_loans mc).1.loans =
      (mc.loans.take (visited mc.loans)).map cache_filled ++
        mc.loans.drop (visited mc.loans)) ∧
    ((compare_loans mc).2 ≠ none ↔ ∀ l ∈ mc.loans, summary_of l ≠ none) ∧
    ((compare_loans mc).2 ≠ none →
      (compare_loans mc).1.loans = mc.loans.map cache_filled) := by
  refine ⟨compare_loans_aux_fst mc.loans,
    compare_loans_aux_snd_ne_none mc.loans, ?_⟩
  intro h
  have hall := (compare_loans_aux_snd_ne_none mc.loans).mp h
  have hv : visited mc.loans = mc.loans.length := visited_eq_length mc.loans hall
  have hfst : (compare_loans mc).1.loans =
      (mc.loans.take (visited mc.loans)).map cache_filled ++
        mc.loans.drop (visited mc.loans) := compare_loans_aux_fst mc.loans
  rw [hfst, hv, List.take_length, List.drop_length, List.append_nil]

/-! ### Construction with a zero term (C8) -/

/-- C8: constructing a loan with `years = 0` (payment count 0) never hands
back an object with an infinite or junk payment: for every principal and
every annual rate the division by the zero payment count signals an error
(`ZeroDivisionError` in Python, modelled as `none`) instead of returning a
value. -/
theorem C8_zero_years_signals_error (principal annual_rate : ℚ)
    (loan_name : String) (start_date : ℤ) :
    MortgageCalculator_init principal annual_rate 0 loan_name start_date =
      none := by
  have hcalc : calculate_monthly_payment
      ⟨principal, annual_rate, 0, loan_name, start_date, none⟩ = none := by
    unfold calculate_monthly_payment
    by_cases hr : monthly_rate ⟨principal, annual_rate, 0, loan_name, start_date, none⟩ = 0
    · rw [if_pos hr, if_pos]
      show ((num_payments ⟨principal, annual_rate, 0, loan_name, start_date, none⟩ : ℕ) : ℚ) = 0
      norm_num [num_payments]
    · rw [if_neg hr, if_pos]
      show (1 + monthly_rate ⟨principal, annual_rate, 0, loan_name, start_date, none⟩) ^
        num_payments ⟨principal, annual_rate, 0, loan_name, start_date, none⟩ - 1 = 0
      norm_num [num_payments]
  simp only [MortgageCalculator_init, hcalc]

/-! ### Determinism of regeneration (C9) -/

lemma run_months_cache_irrelevant (c : MortgageCalculator)
    (o : Option (List Row)) :
    ∀ m, run_months ⟨c.principal, c.annual_rate, c.years, c.loan_name, c.start_date, o⟩ m =
      run_months c m
  | 0 => rfl
  | m + 1 => by
    have ih := run_months_cache_irrelevant c o m
    show ((loop_body ⟨c.principal, c.annual_rate, c.years, c.loan_name, c.start_date, o⟩
        (run_months ⟨c.principal, c.annual_rate, c.years, c.loan_name, c.start_date, o⟩ m).1 (m + 1)).1,
      (run_months ⟨c.principal, c.annual_rate, c.years, c.loan_name, c.start_date, o⟩ m).2 ++
        [(loop_body ⟨c.principal, c.annual_rate, c.years, c.loan_name, c.start_date, o⟩
          (run_months ⟨c.principal, c.annual_rate, c.years, c.loan_name, c.start_date, o⟩ m).1 (m + 1)).2]) =
      run_months c (m + 1)
    rw [ih]
    rfl

lemma generate_table_cache_irrelevant (c : MortgageCalculator)
    (o : Option (List Row)) :
    generate_amortization_table
      ⟨c.principal, c.annual_rate, c.years, c.loan_name, c.start_date, o⟩ =
      generate_amortization_table c := by
  unfold generate_amortization_table
  rw [run_months_cache_irrelevant c o]
  rfl

/-- C9: schedule generation is deterministic: two explicit calls to
`generate_amortization_table` on the same loan (the second one running on
the object already mutated by the first) produce tables that are identical
value for value. -/
theorem C9_regeneration_deterministic (c : MortgageCalculator) :
    (generate_amortization_table_m c).2 =
      (generate_amortization_table_m ((generate_amortization_table_m c).1)).2 :=
  (generate_table_cache_irrelevant c (some (generate_amortization_table c))).symm

/-! ### Year-end balances (C7) -/

lemma get?_range'_one (s n i : ℕ) (h : i < n) :
    (List.range' s n).get? i = some (s + i) := by
  rw [List.get?_eq_getElem?, List.getElem?_range' _ _ h]
  norm_num

lemma filterMap_all_some {α β : Type} (f : α → Option β) (g : α → β) :
    ∀ l : List α, (∀ a ∈ l, f a = some (g a)) → l.filterMap f = l.map g
  | [], _ => rfl
  | a :: l, h => by
    rw [List.filterMap_cons, h a (List.mem_cons_self a l),
      filterMap_all_some f g l (fun b hb => h b (List.mem_cons_of_mem a hb)),
      List.map_cons]

/-- The year-end record extracted from a table that actually has the row. -/
def year_end_at (t : List Row) (y : ℕ) : YearEnd :=
  match t.get? (y * 12 - 1) with
  | some row => ⟨y, row.remaining_balance, row.total_interest_paid,
      row.cumulative_principal⟩
  | none => ⟨y, 0, 0, 0⟩

lemma year_ends_from_eq_map (t : List Row) (years : ℕ)
    (h : ∀ y ∈ List.range' 1 years, y * 12 - 1 < t.length) :
    year_ends_from t years = (List.range' 1 years).map (year_end_at t) := by
  unfold year_ends_from
  apply filterMap_all_some
  intro y hy
  cases hrow : t.get? (y * 12 - 1) with
  | none =>
    exact absurd (List.get?_eq_none.mp hrow) (by have := h y hy; omega)
  | some row =>
    simp only [year_end_at, hrow]

lemma year_ends_mem (t : List Row) (years : ℕ) (e : YearEnd)
    (he : e ∈ year_ends_from t years) :
    e.year * 12 - 1 < t.length := by
  unfold year_ends_from at he
  rw [List.mem_filterMap] at he
  obtain ⟨y, hy, hf⟩ := he
  cases hrow : t.get? (y * 12 - 1) with
  | none =>
    rw [hrow] at hf
    exact absurd hf (by simp)
  | some row =>
    rw [hrow] at hf
    have he2 : e = ⟨y, row.remaining_balance, row.total_interest_paid,
        row.cumulative_principal⟩ := (Option.some.inj hf).symm
    have hy2 : e.year = y := by rw [he2]
    rw [hy2]
    have h2 := List.get?_eq_some.mp hrow
    exact h2.1

/-- C7: for every loan (with no table cached yet) and every year
`1 ≤ k ≤ years`, the year-end record for year `k` carries exactly the
remaining balance, cumulative interest and cumulative principal of schedule
row `k*12` (1-based, i.e. index `k*12 - 1`); and, over any table, a year
whose month index falls outside the table yields an absent entry (the
record list simply has no entry for that year) rather than an exception. -/
theorem C7_year_end_balances (c : MortgageCalculator)
    (hc : c.amortization_table = none) (k : ℕ) (hk1 : 1 ≤ k)
    (hk2 : k ≤ c.years) :
    (∃ row : Row,
      (generate_amortization_table c).get? (k * 12 - 1) = some row ∧
      ((get_year_end_balances c).2).get? (k - 1) =
        some ⟨k, row.remaining_balance, row.total_interest_paid,
          row.cumulative_principal⟩) ∧
    (∀ (t : List Row) (years j : ℕ), t.length ≤ j * 12 - 1 →
      ∀ e ∈ year_ends_from t years, e.year ≠ j) := by
  constructor
  · have hlen : ∀ y ∈ List.range' 1 c.years,
        y * 12 - 1 < (generate_amortization_table c).length := by
      intro y hy
      rw [List.mem_range'_1] at hy
      rw [generate_length]
      omega
    have hidx : k * 12 - 1 < (generate_amortization_table c).length := by
      rw [generate_length]
      omega
    obtain ⟨row, hrow⟩ : ∃ row,
        (generate_amortization_table c).get? (k * 12 - 1) = some row :=
      ⟨_, List.get?_eq_get hidx⟩
    refine ⟨row, hrow, ?_⟩
    have hye : (get_year_end_balances c).2 =
        year_ends_from (generate_amortization_table c) c.years := by
      unfold get_year_end_balances
      rw [hc]
    rw [hye, year_ends_from_eq_map _ _ hlen, List.get?_map,
      get?_range'_one 1 c.years (k - 1) (by omega)]
    have hk' : 1 + (k - 1) = k := by omega
    rw [hk']
    show some (year_end_at (generate_amortization_table c) k) = _
    unfold year_end_at
    rw [hrow]
  · intro t years j hj e he
    intro hej
    have := year_ends_mem t years e he
    rw [hej] at this
    omega

/-! ### Combined amortization (C10) -/

lemma ensure_table_eq (l : MortgageCalculator) :
    ensure_table l = cache_filled l := by
  unfold ensure_table cache_filled
  split
  next hl =>
    rw [hl]
    rfl
  next t hl =>
    rw [hl]
    exact (with_cache_self l hl).symm

lemma combined_aux_snd :
    ∀ ls : List MortgageCalculator,
      (combined_aux ls).2 = ls.map (fun l =>
        (l.amortization_table.getD (generate_amortization_table l)).map
          (fun row => (l.loan_name, row)))
  | [] => rfl
  | l :: ls => by
    show ((ensure_table l).amortization_table.getD []).map
        (fun row => ((ensure_table l).loan_name, row)) :: (combined_aux ls).2 = _
    rw [List.map_cons, combined_aux_snd ls, ensure_table_eq]
    rfl

/-- C10: `get_combined_amortization` on a LoanSet with no loans raises (the
concatenation of zero tables fails, modelled as `none`) rather than
returning an empty row sequence; on a non-empty LoanSet it returns each
loan's schedule rows tagged with that loan's name, one block per loan, in
insertion order. -/
theorem C10_combined_amortization (mc : MortgageComparison) :
    (mc.loans = [] → get_combined_amortization mc = none) ∧
    (mc.loans ≠ [] → ∃ res : MortgageComparison × List (String × Row),
      get_combined_amortization mc = some res ∧
      res.2 = (mc.loans.map (fun l =>
        (l.amortization_table.getD (generate_amortization_table l)).map
          (fun row => (l.loan_name, row)))).flatten) := by
  constructor
  · intro h
    unfold get_combined_amortization
    rw [h]
    rfl
  · intro h
    cases hls : mc.loans with
    | nil => exact absurd hls h
    | cons l ls =>
      refine ⟨(⟨(combined_aux mc.loans).1⟩, (combined_aux mc.loans).2.flatten),
        ?_, ?_⟩
      · unfold get_combined_amortization
        rw [hls]
        rfl
      · show (combined_aux mc.loans).2.flatten = _
        rw [combined_aux_snd, hls]

/-! ### Witnesses: concrete instantiations of the theorems with hypotheses -/

/-- Witness for C1 at the concrete loan `fresh_loan`. -/
theorem C1_witness :
    ((0 : ℚ) < fresh_loan.principal ∧ (0 : ℚ) ≤ fresh_loan.annual_rate ∧
      fresh_loan.annual_rate < 1 ∧ 1 ≤ fresh_loan.years) ∧
    ((generate_amortization_table fresh_loan).length = fresh_loan.years * 12 ∧
      ∃ row : Row, (generate_amortization_table fresh_loan).getLast? = some row ∧
        |row.remaining_balance - 0| ≤ 1 / 100) :=
  ⟨⟨by norm_num [fresh_loan], by norm_num [fresh_loan], by norm_num [fresh_loan],
      by norm_num [fresh_loan]⟩,
    C1_schedule_length_and_final_balance fresh_loan (by norm_num [fresh_loan])
      (by norm_num [fresh_loan]) (by norm_num [fresh_loan])
      (by norm_num [fresh_loan])⟩

/-- Witness for C4 at the concrete loan `fresh_loan`. -/
theorem C4_witness :
    ((0 : ℚ) < fresh_loan.principal ∧ (0 : ℚ) ≤ fresh_loan.annual_rate ∧
      fresh_loan.annual_rate < 1 ∧ 1 ≤ fresh_loan.years) ∧
    |(((generate_amortization_table fresh_loan).map Row.principal).sum) -
      fresh_loan.principal| ≤ ((fresh_loan.years * 12 : ℕ) : ℚ) * (1 / 100) :=
  ⟨⟨by norm_num [fresh_loan], by norm_num [fresh_loan], by norm_num [fresh_loan],
      by norm_num [fresh_loan]⟩,
    C4_principal_sum fresh_loan (by norm_num [fresh_loan])
      (by norm_num [fresh_loan]) (by norm_num [fresh_loan])
      (by norm_num [fresh_loan])⟩

/-- Witness for C5 at the concrete loan `fresh_loan`. -/
theorem C5_witness :
    (fresh_loan.annual_rate = 0 ∧ 1 ≤ fresh_loan.years) ∧
    (calculate_monthly_payment fresh_loan =
      some (fresh_loan.principal / ((fresh_loan.years : ℚ) * 12)) ∧
    ∀ row ∈ generate_amortization_table fresh_loan, row.interest = 0) :=
  ⟨⟨rfl, by norm_num [fresh_loan]⟩,
    C5_zero_rate_payment_and_interest fresh_loan rfl (by norm_num [fresh_loan])⟩

/-- Witness for C6 at the concrete loan `fresh_loan`. -/
theorem C6_witness :
    ((0 : ℚ) < fresh_loan.principal ∧ (0 : ℚ) ≤ fresh_loan.annual_rate ∧
      fresh_loan.annual_rate < 1 ∧ 1 ≤ fresh_loan.years) ∧
    (∀ i ri rj, (generate_amortization_table fresh_loan).get? i = some ri →
      (generate_amortization_table fresh_loan).get? (i + 1) = some rj →
      rj.remaining_balance ≤ ri.remaining_balance) :=
  ⟨⟨by norm_num [fresh_loan], by norm_num [fresh_loan], by norm_num [fresh_loan],
      by norm_num [fresh_loan]⟩,
    C6_balance_nonincreasing fresh_loan (by norm_num [fresh_loan])
      (by norm_num [fresh_loan]) (by norm_num [fresh_loan])
      (by norm_num [fresh_loan])⟩

/-- Witness for C7 at the concrete loan `fresh_loan` and year 1. -/
theorem C7_witness :
    (fresh_loan.amortization_table = none ∧ 1 ≤ 1 ∧ 1 ≤ fresh_loan.years) ∧
    ((∃ row : Row,
      (generate_amortization_table fresh_loan).get? (1 * 12 - 1) = some row ∧
      ((get_year_end_balances fresh_loan).2).get? (1 - 1) =
        some ⟨1, row.remaining_balance, row.total_interest_paid,
          row.cumulative_principal⟩) ∧
    (∀ (t : List Row) (years j : ℕ), t.length ≤ j * 12 - 1 →
      ∀ e ∈ year_ends_from t years, e.year ≠ j)) :=
  ⟨⟨rfl, le_refl 1, by norm_num [fresh_loan]⟩,
    C7_year_end_balances fresh_loan rfl 1 (le_refl 1)
      (by norm_num [fresh_loan])⟩

/-- Witness for C10: the empty LoanSet raises, a one-loan LoanSet yields the
tagged block of that loan. -/
theorem C10_witness :
    get_combined_amortization ⟨[]⟩ = none ∧
    ∃ res : MortgageComparison × List (String × Row),
      get_combined_amortization ⟨[fresh_loan]⟩ = some res ∧
      res.2 = ((⟨[fresh_loan]⟩ : MortgageComparison).loans.map (fun l =>
        (l.amortization_table.getD (generate_amortization_table l)).map
          (fun row => (l.loan_name, row)))).flatten :=
  ⟨(C10_combined_amortization ⟨[]⟩).1 rfl,
    (C10_combined_amortization ⟨[fresh_loan]⟩).2 (by simp)⟩


/-- Witness for C3's amended theorem at a concrete one-loan LoanSet: no
summary raises there, so the call succeeds and every cache is populated. -/
theorem C3_witness :
    (compare_loans ⟨[fresh_loan]⟩).2 ≠ none ∧
    (compare_loans ⟨[fresh_loan]⟩).1.loans = [fresh_loan].map cache_filled := by
  have hall : ∀ l ∈ ([fresh_loan] : List MortgageCalculator),
      summary_of l ≠ none := by
    intro l hl
    rw [List.mem_singleton] at hl
    rw [hl]
    exact fresh_loan_summary_some
  have hne : (compare_loans ⟨[fresh_loan]⟩).2 ≠ none :=
    ((C3_compare_loans_cache_only ⟨[fresh_loan]⟩).2.1).mpr hall
  exact ⟨hne, (C3_compare_loans_cache_only ⟨[fresh_loan]⟩).2.2 hne⟩

/-- Witness for C8 at a concrete principal and rate. -/
theorem C8_witness :
    MortgageCalculator_init 500000 (1 / 20) 0 "ZeroTerm" 0 = none :=
  C8_zero_years_signals_error 500000 (1 / 20) "ZeroTerm" 0

/-- Witness for C9 at the concrete loan `fresh_loan`. -/
theorem C9_witness :
    (generate_amortization_table_m fresh_loan).2 =
      (generate_amortization_table_m
        ((generate_amortization_table_m fresh_loan).1)).2 :=
  C9_regeneration_deterministic fresh_loan

end Mortgage
